import Mathlib

set_option maxRecDepth 8000

/-!
Shallow embedding of `plaso/parsers/bash_history.py` and
`plaso/parsers/sqlite_plugins/firefox.py`.  Strings are modelled as
`List Char`; NULLable SQLite integer columns as `Option Int` (Python
truthiness: `None` and `0` are falsy); the parser mediator as a list of
produced events.
-/

abbrev Str := List Char

/-- Python truthiness of a nullable integer column: `None` and `0` are falsy. -/
def pyTruthy : Option Int → Bool
  | none => false
  | some n => n != 0

/-- Timestamp roles (`plaso.lib.eventdata.EventTimestamp` constants used here). -/
inductive EventRole where
  | addedTime
  | modificationTime
  | pageVisited
  | startTime
  | endTime
  deriving DecidableEq, Repr

/-- One produced event: `time_events.DateTimeValuesEvent` paired by
`ProduceEventWithEventData` with its event-data object. -/
structure Event (α : Type) where
  timestamp : Int
  timestamp_desc : EventRole
  data : α
  deriving DecidableEq

/-! ## bash_history.py grammar

`_TIMESTAMP = Suppress('#') + Word(nums, min=9, max=10)`,
`_COMMAND = Regex(r'.*?(?=($|\n#\d{10}))', re.DOTALL)`,
`_LINE_GRAMMAR = _TIMESTAMP + _COMMAND + lineEnd()`.
pyparsing skips its default whitespace characters (space, tab, newline)
before each element of a grammar.
-/

/-- pyparsing default whitespace characters (space, tab, newline). -/
def isPPWs (c : Char) : Bool := c == ' ' || c == '\t' || c == '\n'

/-- Leading-whitespace skipping done by pyparsing before each grammar element. -/
def skipPPWs (s : Str) : Str := s.dropWhile isPPWs

/-- `text_parser.PyParseIntCast` on the matched digit run. -/
def digitsToNat (ds : Str) : Nat := ds.foldl (fun a c => 10 * a + (c.toNat - '0'.toNat)) 0

/-- `Suppress('#') + Word(nums, min=9, max=10)`: after a whitespace skip expect
the marker `#`, skip whitespace again, then greedily take at most 10 digit
characters, requiring at least 9.  Returns the digit run and the remainder. -/
def timestampTokenMatch (s : Str) : Option (Str × Str) :=
  match skipPPWs s with
  | '#' :: r =>
    let r1 := skipPPWs r
    let ds := (r1.takeWhile Char.isDigit).take 10
    if 9 ≤ ds.length then some (ds, r1.drop ds.length) else none
  | _ => none

/-- The lookahead `(?=($|\n#\d{10}))` of `_COMMAND` (with `re.DOTALL` and no
`re.MULTILINE`, `$` matches only at the end of the input or just before a
final newline): the remainder is empty, is a single final newline, or starts
with a newline, the marker, and at least ten digits. -/
def commandLookAhead (s : Str) : Bool :=
  s == ([] : Str) || s == ['\n'] ||
    (match s with
     | '\n' :: '#' :: t => decide (10 ≤ (t.takeWhile Char.isDigit).length)
     | _ => false)

/-- `_COMMAND`'s lazy `.*?` bounded by `commandLookAhead`: the shortest prefix
whose remainder satisfies the lookahead.  Returns (matched payload, rest). -/
def commandSplit : Str → Str × Str
  | [] => ([], [])
  | c :: t =>
    if commandLookAhead (c :: t) then ([], c :: t)
    else
      let p := commandSplit t
      (c :: p.1, p.2)

/-- `pyparsing.lineEnd()`: skip spaces and tabs (not newlines), then consume a
newline, or succeed at the end of the input. -/
def matchLineEnd (s : Str) : Option Str :=
  match s.dropWhile (fun c => c == ' ' || c == '\t') with
  | [] => some []
  | '\n' :: t => some t
  | _ => none

/-- `_LINE_GRAMMAR = _TIMESTAMP + _COMMAND + lineEnd()`: returns the cast
timestamp, the matched command payload, and the unconsumed remainder. -/
def lineGrammarMatch (s : Str) : Option (Nat × Str × Str) :=
  match timestampTokenMatch s with
  | none => none
  | some (ds, r) =>
    let cr := commandSplit (skipPPWs r)
    match matchLineEnd cr.2 with
    | none => none
    | some rest => some (digitsToNat ds, cr.1, rest)

/-- `BashHistoryEventData`: data type `bash:history:command`. -/
structure BashHistoryEventData where
  command : Str
  deriving DecidableEq

/-- The fields a `log_entry` match hands to `ParseRecord`. -/
structure LogEntryStructure where
  timestamp : Nat
  command : Str

/-- `BashHistoryParser.ParseRecord`: raises `ParseError` when the key is not
`log_entry` (before anything is produced), otherwise produces exactly one
modification-time event carrying the command.  The mediator is modelled as the
list of already-produced events; the first component is the raised error. -/
def ParseRecord (key : Str) (st : LogEntryStructure)
    (produced : List (Event BashHistoryEventData)) :
    Option Str × List (Event BashHistoryEventData) :=
  if key ≠ ("log_entry".toList) then
    (some (("Unable to parse record, unknown structure: ".toList) ++ key), produced)
  else
    (none, produced ++ [⟨(st.timestamp : Int), EventRole.modificationTime, ⟨st.command⟩⟩])

/-! ## bash_history.py verification grammar

`_VERIFICATION_GRAMMAR = Regex(r'^\s?[^#].*?$', re.MULTILINE) + _TIMESTAMP +
NotAny(pythonStyleComment)`; `VerifyStructure` runs `scanString` with
`maxMatches=1` and returns whether any position matched.
-/

/-- The character class `\s` of Python regular expressions. -/
def isReWs (c : Char) : Bool :=
  c == ' ' || c == '\t' || c == '\n' || c == '\r' || c == '\x0b' || c == '\x0c'

/-- Consume characters up to (excluding) the next newline or the end of the
input: the effect of the lazy `.*?$` under `re.MULTILINE` (where `$` holds
just before any newline and at the end, and `.` never crosses a newline). -/
def dropToLineEnd (s : Str) : Str := s.dropWhile (fun c => !(c == '\n'))

/-- The first verification element `Regex(r'^\s?[^#].*?$', re.MULTILINE)`
applied at a line-start position: greedily try one `\s` character, then one
character other than `#` (backtracking to an empty `\s?` when needed), then
`.*?$`.  Returns the remainder after the match. -/
def elem1 : Str → Option Str
  | [] => none
  | c0 :: t =>
    if isReWs c0 then
      match t with
      | c1 :: t1 => if c1 == '#' then some (dropToLineEnd t) else some (dropToLineEnd t1)
      | [] => some (dropToLineEnd t)
    else if c0 == '#' then none
    else some (dropToLineEnd t)

/-- `pythonStyleComment` (`Regex(r'#.*')`) would match at this position after
pyparsing's whitespace skip; `NotAny` fails exactly when this holds. -/
def commentAt (s : Str) : Bool := (skipPPWs s).head? == some '#'

/-- The whole verification grammar applied at one line-start position. -/
def verifyAt (s : Str) : Bool :=
  match elem1 s with
  | none => false
  | some rest =>
    match timestampTokenMatch rest with
    | none => false
    | some p => !(commentAt p.2)

/-- `scanString`'s whitespace pre-skip, tracking whether the post-skip
position is a line start (position 0 or preceded by a newline). -/
def skipLS : Bool → Str → Bool × Str
  | ls, [] => (ls, [])
  | ls, c :: t => if isPPWs c then skipLS (c == '\n') t else (ls, c :: t)

/-- `scanString` over the sample: at each position skip whitespace, try the
grammar (whose `^` anchor requires a line start), else advance one character. -/
def scanVerifyAux : Bool → Str → Bool
  | _, [] => false
  | ls, c :: t =>
    ((skipLS ls (c :: t)).1 && verifyAt (skipLS ls (c :: t)).2) || scanVerifyAux (c == '\n') t

/-- `BashHistoryParser.VerifyStructure`: true iff the verification grammar
matches anywhere in the sample. -/
def VerifyStructure (s : Str) : Bool := scanVerifyAux true s

/-! ## firefox.py: event data and rows -/

/-- `FirefoxPlacesBookmarkAnnotationEventData`. -/
structure FirefoxPlacesBookmarkAnnotationEventData where
  content : Str
  offset : Int
  query : Str
  title : Str
  url : Str
  deriving DecidableEq

/-- Row of the bookmark-annotation query (`moz_items_annos` join). -/
structure BookmarkAnnotationRow where
  content : Str
  dateAdded : Option Int
  lastModified : Option Int
  title : Str
  url : Str
  rev_host : Str
  id : Int

/-- `FirefoxPlacesBookmarkFolderEventData`. -/
structure FirefoxPlacesBookmarkFolderEventData where
  offset : Int
  query : Str
  title : Str
  deriving DecidableEq

/-- Row of the bookmark-folder query (`moz_bookmarks WHERE type = 2`). -/
structure BookmarkFolderRow where
  id : Int
  title : Str
  dateAdded : Option Int
  lastModified : Option Int

/-- `FirefoxPlacesBookmarkEventData`. -/
structure FirefoxPlacesBookmarkEventData where
  host : Str
  offset : Int
  places_title : Str
  query : Str
  title : Str
  type : Str
  url : Str
  visit_count : Int
  deriving DecidableEq

/-- Row of the bookmark query (`moz_places` x `moz_bookmarks`). -/
structure BookmarkRow where
  type : Int
  bookmark_title : Str
  dateAdded : Option Int
  lastModified : Option Int
  url : Str
  places_title : Str
  rev_host : Str
  visit_count : Int
  id : Int

/-- `FirefoxPlacesPageVisitedEventData` (the `extra` attribute starts as
`None` and is only set when the derived list is non-empty). -/
structure FirefoxPlacesPageVisitedEventData where
  extra : Option (List Str)
  host : Str
  offset : Int
  query : Str
  title : Str
  url : Str
  visit_count : Int
  visit_type : Int
  deriving DecidableEq

/-- Row of the page-visit query (`moz_places` x `moz_historyvisits`). -/
structure PageVisitRow where
  id : Int
  url : Str
  title : Str
  visit_count : Int
  visit_date : Option Int
  from_visit : Option Int
  rev_host : Str
  hidden : Str
  typed : Str
  visit_type : Int

/-- `FirefoxDownloadEventData`. -/
structure FirefoxDownloadEventData where
  full_path : Str
  mime_type : Str
  name : Str
  offset : Int
  query : Str
  received_bytes : Int
  referrer : Str
  temporary_location : Str
  total_bytes : Int
  url : Str
  deriving DecidableEq

/-- Row of the downloads query (`moz_downloads`). -/
structure DownloadRow where
  id : Int
  name : Str
  source : Str
  target : Str
  tempPath : Str
  startTime : Option Int
  endTime : Option Int
  state : Int
  referrer : Str
  currBytes : Int
  maxBytes : Int
  mimeType : Str

/-- `FirefoxHistoryPlugin._BOOKMARK_TYPES.get(t, u'N/A')`. -/
def BOOKMARK_TYPES (t : Int) : Str :=
  if t == 1 then ("URL".toList)
  else if t == 2 then ("Folder".toList)
  else if t == 3 then ("Separator".toList)
  else ("N/A".toList)

/-- `FirefoxHistoryPlugin._ReverseHostname`: reverse the stored hostname and
strip the dot that ends up in front; empty and single-character inputs are
returned unmodified (the empty string standing for null/empty input). -/
def ReverseHostname (hostname : Str) : Str :=
  if hostname = [] then []
  else if 1 < hostname.length then
    if hostname.getLast? = some '.' then hostname.reverse.drop 1
    else hostname.reverse
  else hostname

/-! ## firefox.py: database, cache and the page-visit auxiliary lookup -/

/-- A `moz_places` row (the columns the plugin consumes). -/
structure MozPlace where
  id : Int
  url : Str
  title : Str
  rev_host : Str
  visit_count : Int
  hidden : Str
  typed : Str

/-- A `moz_historyvisits` row (the columns the plugin consumes). -/
structure MozHistoryVisit where
  id : Int
  place_id : Int
  visit_date : Option Int
  from_visit : Option Int
  visit_type : Int

/-- The relational source for the history plugin. -/
structure PlacesDatabase where
  moz_places : List MozPlace
  moz_historyvisits : List MozHistoryVisit

/-- Modelled from the spec: the join `FROM moz_places, moz_historyvisits
WHERE moz_places.id = moz_historyvisits.place_id` shared by the page-visit
query and the URL cache query, executed by the external query engine
(`plaso.parsers.sqlite`, not under src). -/
def placesJoin (db : PlacesDatabase) : List (MozPlace × MozHistoryVisit) :=
  db.moz_places.flatMap fun p =>
    (db.moz_historyvisits.filter fun h => h.place_id == p.id).map fun h => (p, h)

/-- One row of `URL_CACHE_QUERY` (`h.id AS id, p.url, p.rev_host`). -/
structure UrlCacheRow where
  id : Int
  url : Str
  rev_host : Str

/-- Modelled from the spec: `database.Query(self.URL_CACHE_QUERY)` — the
dedicated wide query run once to build the auxiliary mapping. -/
def URL_CACHE_QUERY_Results (db : PlacesDatabase) : List UrlCacheRow :=
  (placesJoin db).map fun ph => { id := ph.2.id, url := ph.1.url, rev_host := ph.1.rev_host }

/-- Modelled from the spec: the rows the page-visit query hands to
`ParsePageVisitedRow`, one per element of the join. -/
def pageVisitQueryResults (db : PlacesDatabase) : List PageVisitRow :=
  (placesJoin db).map fun ph =>
    { id := ph.2.id, url := ph.1.url, title := ph.1.title,
      visit_count := ph.1.visit_count, visit_date := ph.2.visit_date,
      from_visit := ph.2.from_visit, rev_host := ph.1.rev_host,
      hidden := ph.1.hidden, typed := ph.1.typed, visit_type := ph.2.visit_type }

/-- The key-to-(url, rev_host) mapping stored under the cache name `url`. -/
abbrev UrlMapping := List (Int × (Str × Str))

/-- Modelled from the spec: `SQLiteCache` (in `plaso.parsers.sqlite`, not
under src) holding at most the one `url` mapping; `none` means
`GetResults(u'url')` returns nothing because the mapping was never stored. -/
abbrev SQLiteCache := Option UrlMapping

/-- Modelled from the spec: `cache.CacheQueryResults(result_set, 'url', 'id',
('url', 'rev_host'))` — build the full key-to-value-tuple mapping from the
wide query's result set. -/
def CacheQueryResults (rows : List UrlCacheRow) : UrlMapping :=
  rows.map fun r => (r.id, (r.url, r.rev_host))

/-- The `'{0:s} ({1:s})'` formatting of `_GetUrl` guarded by `if not url`. -/
def formatUrl (p : Str × Str) : Str :=
  if p.1 = [] then []
  else p.1 ++ (" (".toList) ++ ReverseHostname p.2 ++ (")".toList)

/-- `FirefoxHistoryPlugin._GetUrl`: when the `url` cache results are falsy
(never stored, or stored empty) run the wide query and store its mapping,
then resolve `url_id` with `['', '']` as the miss default.  Also returns the
updated cache and the number of wide-query executions this call performed. -/
def GetUrl (url_id : Int) (cache : SQLiteCache) (db : PlacesDatabase) :
    Str × SQLiteCache × Nat :=
  match cache with
  | some m =>
    if m.isEmpty then
      let m2 := CacheQueryResults (URL_CACHE_QUERY_Results db)
      (formatUrl ((m2.lookup url_id).getD ([], [])), some m2, 1)
    else
      (formatUrl ((m.lookup url_id).getD ([], [])), some m, 0)
  | none =>
    let m2 := CacheQueryResults (URL_CACHE_QUERY_Results db)
    (formatUrl ((m2.lookup url_id).getD ([], [])), some m2, 1)

/-- The `extras` list built at the start of `ParsePageVisitedRow`: visited-from
resolution (only for a truthy `from_visit`), the hidden marker (only for
`hidden == u'1'`), and one of the two typed markers, in this order.  Threads
the cache and counts wide-query executions. -/
def PageVisitExtras (row : PageVisitRow) (cache : SQLiteCache) (db : PlacesDatabase) :
    List Str × SQLiteCache × Nat :=
  let s1 :=
    if pyTruthy row.from_visit then
      let r := GetUrl (row.from_visit.getD 0) cache db
      ([("visited from: ".toList) ++ r.1], r.2.1, r.2.2)
    else (([] : List Str), cache, 0)
  let e2 := if row.hidden = ("1".toList) then [("(url hidden)".toList)] else []
  let e3 :=
    if row.typed = ("1".toList) then [("(directly typed)".toList)]
    else [("(URL not typed directly)".toList)]
  (s1.1 ++ e2 ++ e3, s1.2.1, s1.2.2)

/-- `FirefoxHistoryPlugin.ParsePageVisitedRow`: build the extras list, build
one event-data object (`extra` set only when the list is non-empty), and
produce one page-visited event iff `visit_date` is truthy. -/
def ParsePageVisitedRow (row : PageVisitRow) (query : Str) (cache : SQLiteCache)
    (db : PlacesDatabase) :
    List (Event FirefoxPlacesPageVisitedEventData) × SQLiteCache × Nat :=
  let ex := PageVisitExtras row cache db
  let event_data : FirefoxPlacesPageVisitedEventData :=
    { extra := if ex.1 = [] then none else some ex.1,
      host := ReverseHostname row.rev_host,
      offset := row.id, query := query, title := row.title, url := row.url,
      visit_count := row.visit_count, visit_type := row.visit_type }
  ((if pyTruthy row.visit_date then
      [⟨row.visit_date.getD 0, EventRole.pageVisited, event_data⟩]
    else []),
   ex.2.1, ex.2.2)

/-- Modelled from the spec: the query engine's row loop for the page-visit
query — invoke the row handler once per row, threading the invocation's cache
and accumulating events and wide-query executions. -/
def runRows (query : Str) (db : PlacesDatabase) :
    List PageVisitRow →
    List (Event FirefoxPlacesPageVisitedEventData) × SQLiteCache × Nat →
    List (Event FirefoxPlacesPageVisitedEventData) × SQLiteCache × Nat
  | [], acc => acc
  | row :: rest, acc =>
    let r := ParsePageVisitedRow row query acc.2.1 db
    runRows query db rest (acc.1 ++ r.1, r.2.1, acc.2.2 + r.2.2)

/-- Modelled from the spec: one plugin invocation of the page-visit query on
one source, starting from a fresh (empty) cache. -/
def RunPageVisitedQuery (db : PlacesDatabase) (query : Str) :
    List (Event FirefoxPlacesPageVisitedEventData) × SQLiteCache × Nat :=
  runRows query db (pageVisitQueryResults db) ([], none, 0)

/-! ## firefox.py: the remaining row handlers -/

/-- `FirefoxHistoryPlugin.ParseBookmarkAnnotationRow`: one event-data object,
then an added-time event iff `dateAdded` is truthy and a modification-time
event iff `lastModified` is truthy, both sharing the event data. -/
def ParseBookmarkAnnotationRow (row : BookmarkAnnotationRow) (query : Str) :
    List (Event FirefoxPlacesBookmarkAnnotationEventData) :=
  let event_data : FirefoxPlacesBookmarkAnnotationEventData :=
    { content := row.content, offset := row.id, query := query,
      title := row.title, url := row.url }
  (if pyTruthy row.dateAdded then
    [⟨row.dateAdded.getD 0, EventRole.addedTime, event_data⟩]
   else []) ++
  (if pyTruthy row.lastModified then
    [⟨row.lastModified.getD 0, EventRole.modificationTime, event_data⟩]
   else [])

/-- `FirefoxHistoryPlugin.ParseBookmarkFolderRow` (`row['title'] or u'N/A'`
modelled with the empty string as the falsy title). -/
def ParseBookmarkFolderRow (row : BookmarkFolderRow) (query : Str) :
    List (Event FirefoxPlacesBookmarkFolderEventData) :=
  let event_data : FirefoxPlacesBookmarkFolderEventData :=
    { offset := row.id, query := query,
      title := if row.title = [] then ("N/A".toList) else row.title }
  (if pyTruthy row.dateAdded then
    [⟨row.dateAdded.getD 0, EventRole.addedTime, event_data⟩]
   else []) ++
  (if pyTruthy row.lastModified then
    [⟨row.lastModified.getD 0, EventRole.modificationTime, event_data⟩]
   else [])

/-- `FirefoxHistoryPlugin.ParseBookmarkRow`. -/
def ParseBookmarkRow (row : BookmarkRow) (query : Str) :
    List (Event FirefoxPlacesBookmarkEventData) :=
  let event_data : FirefoxPlacesBookmarkEventData :=
    { host := if row.rev_host = [] then ("N/A".toList) else row.rev_host,
      offset := row.id, places_title := row.places_title, query := query,
      title := row.bookmark_title, type := BOOKMARK_TYPES row.type,
      url := row.url, visit_count := row.visit_count }
  (if pyTruthy row.dateAdded then
    [⟨row.dateAdded.getD 0, EventRole.addedTime, event_data⟩]
   else []) ++
  (if pyTruthy row.lastModified then
    [⟨row.lastModified.getD 0, EventRole.modificationTime, event_data⟩]
   else [])

/-- `FirefoxDownloadsPlugin.ParseDownloadsRow`: a start-time event iff
`startTime` is truthy and an end-time event iff `endTime` is truthy. -/
def ParseDownloadsRow (row : DownloadRow) (query : Str) :
    List (Event FirefoxDownloadEventData) :=
  let event_data : FirefoxDownloadEventData :=
    { full_path := row.target, mime_type := row.mimeType, name := row.name,
      offset := row.id, query := query, received_bytes := row.currBytes,
      referrer := row.referrer, temporary_location := row.tempPath,
      total_bytes := row.maxBytes, url := row.source }
  (if pyTruthy row.startTime then
    [⟨row.startTime.getD 0, EventRole.startTime, event_data⟩]
   else []) ++
  (if pyTruthy row.endTime then
    [⟨row.endTime.getD 0, EventRole.endTime, event_data⟩]
   else [])

/-! ## Claim theorems -/

/-- C2: the claim fails on the code.  With the reference stream
`#1234567890\nls\n#123456789\npwd\n` the payload of the first matched record
does not end at the following 9-digit anchor: the lookahead
`(?=($|\n#\d{10}))` requires exactly ten digits, so the 9-digit anchor and its
record are swallowed into the payload, which runs to the end of the stream;
with a 10-digit next anchor the payload correctly stops at the anchor. -/
theorem c2_nine_digit_anchor_swallowed :
    lineGrammarMatch ("#1234567890\nls\n#123456789\npwd\n".toList)
      = some (1234567890, ("ls\n#123456789\npwd".toList), []) ∧
    lineGrammarMatch ("#1234567890\nls\n#1234567891\npwd\n".toList)
      = some (1234567890, ("ls".toList), ("#1234567891\npwd\n".toList)) := by decide

/-- C5: `ParseRecord` raises `ParseError` iff the structure key is not
`log_entry`, and when it raises, the mediator's produced-event list is left
unchanged (the error precedes any emission). -/
theorem c5_parse_error_iff_unknown_key (key : Str) (st : LogEntryStructure)
    (produced : List (Event BashHistoryEventData)) :
    ((ParseRecord key st produced).1.isSome = true ↔ ¬(key = ("log_entry".toList))) ∧
    (¬(key = ("log_entry".toList)) → (ParseRecord key st produced).2 = produced) := by
  unfold ParseRecord
  split
  next hne =>
    simp at hne
    simp [hne]
  next hne =>
    simp at hne
    simp [hne]

/-- C5 witness: at the concrete unknown key `bogus` the error is raised and no
event is produced. -/
theorem c5_witness :
    ((ParseRecord ("bogus".toList) ⟨0, []⟩ []).1.isSome = true) ∧
    ((ParseRecord ("bogus".toList) ⟨0, []⟩ []).2
      = ([] : List (Event BashHistoryEventData))) :=
  ⟨(c5_parse_error_iff_unknown_key ("bogus".toList) ⟨0, []⟩ []).1.mpr (by decide),
   (c5_parse_error_iff_unknown_key ("bogus".toList) ⟨0, []⟩ []).2 (by decide)⟩

/-- C4 counterexample: the claimed involution fails for a hostname without a
trailing dot but with a leading dot: `reverse(reverse(".a")) = "a" ≠ ".a"`
(the reversal of `.a` is `a.`, whose trailing dot is then stripped). -/
theorem c4_counterexample :
    (['.', 'a'].getLast? ≠ some '.') ∧
    ReverseHostname (ReverseHostname ['.', 'a']) ≠ ['.', 'a'] := by decide

/-- C4 (amended): for every hostname without a trailing dot and without a
leading dot, `reverse(reverse(h)) = h`; moreover
`reverse("moc.elgoog.www.") = "www.google.com"`, `reverse("") = ""`, and the
reversal of any single-character input is that input unmodified. -/
theorem c4_reverse_hostname_amended (h : Str)
    (h1 : h.getLast? ≠ some '.') (h2 : h.head? ≠ some '.') :
    ReverseHostname (ReverseHostname h) = h ∧
    ReverseHostname ("moc.elgoog.www.".toList) = ("www.google.com".toList) ∧
    ReverseHostname ([] : Str) = [] ∧
    ∀ c : Char, ReverseHostname [c] = [c] := by
  refine ⟨?_, by decide, by decide, fun c => by simp [ReverseHostname]⟩
  by_cases hnil : h = []
  · simp [hnil, ReverseHostname]
  · by_cases hlen : 1 < h.length
    · have e1 : ReverseHostname h = h.reverse := by
        simp [ReverseHostname, hnil, hlen, h1]
      have hrnil : ¬(h.reverse = []) := by simpa using hnil
      have hrlen : 1 < h.reverse.length := by simpa using hlen
      have hlast : ¬(h.reverse.getLast? = some '.') := by
        rw [List.getLast?_reverse]; exact h2
      rw [e1]
      simp [ReverseHostname, hrnil, hrlen, hlast, hlen, h2]
    · have e1 : ReverseHostname h = h := by simp [ReverseHostname, hnil, hlen]
      rw [e1, e1]

/-- C4 witness: the amended involution at the concrete hostname `ab`. -/
theorem c4_witness :
    (("ab".toList).getLast? ≠ some '.') ∧ (("ab".toList).head? ≠ some '.') ∧
    ReverseHostname (ReverseHostname ("ab".toList)) = ("ab".toList) :=
  ⟨by decide, by decide,
   (c4_reverse_hostname_amended ("ab".toList) (by decide) (by decide)).1⟩

/-- C8: a lookup miss in the built (non-empty) `url` cache mapping resolves to
the empty string, leaves the cache untouched and runs no further query, rather
than raising an error. -/
theorem c8_lookup_miss_returns_empty (url_id : Int) (m : UrlMapping)
    (db : PlacesDatabase) (hne : m ≠ []) (hmiss : m.lookup url_id = none) :
    GetUrl url_id (some m) db = ([], some m, 0) := by
  have hie : m.isEmpty = false := by
    cases m with
    | nil => exact absurd rfl hne
    | cons a t => rfl
  simp [GetUrl, hie, hmiss, formatUrl]

/-- A concrete one-entry cache mapping for the C8 witness. -/
def c8Map : UrlMapping := [((1 : Int), (("u".toList), ("h".toList)))]

/-- An empty relational source. -/
def emptyPlacesDb : PlacesDatabase := { moz_places := [], moz_historyvisits := [] }

/-- C8 witness: key 2 misses the one-entry mapping and resolves to the empty
string with no query executed. -/
theorem c8_witness :
    (c8Map ≠ []) ∧ (c8Map.lookup (2 : Int) = none) ∧
    GetUrl (2 : Int) (some c8Map) emptyPlacesDb = ([], some c8Map, 0) :=
  ⟨by decide, by decide,
   c8_lookup_miss_returns_empty 2 c8Map emptyPlacesDb (by decide) (by decide)⟩

/-- A page-visit row with non-null but zero `from_visit`. -/
def c9Row : PageVisitRow :=
  { id := 1, url := ("http://host/a".toList), title := ("t".toList), visit_count := 1,
    visit_date := some 1, from_visit := some 0, rev_host := ("moc.tsoh.".toList),
    hidden := ("1".toList), typed := ("0".toList), visit_type := 1 }

/-- C9 counterexample: a row with `hidden='1'`, `typed='0'` and a non-null
`from_visit` of 0 yields an annotation list of only the hidden and not-typed
markers — no "visited from" element — because the code tests Python
truthiness, not nullness. -/
theorem c9_counterexample :
    c9Row.from_visit ≠ none ∧ c9Row.hidden = ("1".toList) ∧ c9Row.typed = ("0".toList) ∧
    (PageVisitExtras c9Row none emptyPlacesDb).1
      = [("(url hidden)".toList), ("(URL not typed directly)".toList)] := by decide

/-- C9 (amended): for every page-visit row with `hidden='1'`, `typed='0'` and
a truthy (non-null and non-zero) `from_visit`, the annotation list is exactly
the resolved visited-from text, then the hidden marker, then the not-typed
marker, in this order. -/
theorem c9_annotations_order_amended (row : PageVisitRow) (cache : SQLiteCache)
    (db : PlacesDatabase) (h1 : row.hidden = ("1".toList))
    (h2 : row.typed = ("0".toList)) (h3 : pyTruthy row.from_visit = true) :
    (PageVisitExtras row cache db).1 =
      [("visited from: ".toList) ++ (GetUrl (row.from_visit.getD 0) cache db).1,
       ("(url hidden)".toList), ("(URL not typed directly)".toList)] := by
  have ht : ¬(row.typed = ['1']) := by rw [h2]; decide
  simp [PageVisitExtras, h1, ht, h3]

/-- A page-visit row with a truthy `from_visit` for the C9 witness. -/
def c9wRow : PageVisitRow :=
  { id := 2, url := ("u".toList), title := [], visit_count := 1, visit_date := some 5,
    from_visit := some 7, rev_host := [], hidden := ("1".toList),
    typed := ("0".toList), visit_type := 2 }

/-- C9 witness: the amended annotation order at a concrete row. -/
theorem c9_witness :
    c9wRow.hidden = ("1".toList) ∧ c9wRow.typed = ("0".toList) ∧
    pyTruthy c9wRow.from_visit = true ∧
    (PageVisitExtras c9wRow none emptyPlacesDb).1 =
      [("visited from: ".toList) ++ (GetUrl (c9wRow.from_visit.getD 0) none emptyPlacesDb).1,
       ("(url hidden)".toList), ("(URL not typed directly)".toList)] :=
  ⟨by decide, by decide, by decide,
   c9_annotations_order_amended c9wRow none emptyPlacesDb (by decide) (by decide) (by decide)⟩

/-- The typed check appends a marker in both of its branches, so the extras
list derived for a page-visit row is never empty. -/
theorem pageVisitExtras_ne_nil (row : PageVisitRow) (cache : SQLiteCache)
    (db : PlacesDatabase) : (PageVisitExtras row cache db).1 ≠ [] := by
  unfold PageVisitExtras
  by_cases ht : row.typed = ['1'] <;>
    cases hf : pyTruthy row.from_visit <;>
    by_cases hh : row.hidden = ['1'] <;>
    simp [ht, hf, hh]

/-- C10: for every page-visit row the derived annotation list is non-empty,
so the `extra` attribute of every produced page-visited event data is set to
that non-empty list and never left as `None`. -/
theorem c10_extra_always_set (row : PageVisitRow) (q : Str) (cache : SQLiteCache)
    (db : PlacesDatabase) :
    ((PageVisitExtras row cache db).1.isEmpty = false) ∧
    (((ParsePageVisitedRow row q cache db).1.all fun e =>
        decide (e.data.extra = some (PageVisitExtras row cache db).1)) = true) := by
  have hne := pageVisitExtras_ne_nil row cache db
  constructor
  · cases hx : (PageVisitExtras row cache db).1 with
    | nil => exact absurd hx hne
    | cons a t => rfl
  · cases hv : pyTruthy row.visit_date <;> simp [ParsePageVisitedRow, hv, hne]

/-- C1: for each of the five row handlers, an event for a timestamp role is
produced iff the corresponding raw timestamp column is truthy (non-zero and
non-null); the number of events per row equals the number of truthy timestamp
columns; and all events produced from one row carry the same event data. -/
theorem c1_events_iff_truthy_timestamps :
    (∀ (row : BookmarkRow) (q : Str),
      ((ParseBookmarkRow row q).filter (fun e =>
          decide (e.timestamp_desc = EventRole.addedTime))).length
        = (if pyTruthy row.dateAdded then 1 else 0) ∧
      ((ParseBookmarkRow row q).filter (fun e =>
          decide (e.timestamp_desc = EventRole.modificationTime))).length
        = (if pyTruthy row.lastModified then 1 else 0) ∧
      (ParseBookmarkRow row q).length
        = (if pyTruthy row.dateAdded then 1 else 0)
            + (if pyTruthy row.lastModified then 1 else 0) ∧
      ((ParseBookmarkRow row q).all fun e =>
        (ParseBookmarkRow row q).all fun f => decide (e.data = f.data)) = true) ∧
    (∀ (row : BookmarkAnnotationRow) (q : Str),
      ((ParseBookmarkAnnotationRow row q).filter (fun e =>
          decide (e.timestamp_desc = EventRole.addedTime))).length
        = (if pyTruthy row.dateAdded then 1 else 0) ∧
      ((ParseBookmarkAnnotationRow row q).filter (fun e =>
          decide (e.timestamp_desc = EventRole.modificationTime))).length
        = (if pyTruthy row.lastModified then 1 else 0) ∧
      (ParseBookmarkAnnotationRow row q).length
        = (if pyTruthy row.dateAdded then 1 else 0)
            + (if pyTruthy row.lastModified then 1 else 0) ∧
      ((ParseBookmarkAnnotationRow row q).all fun e =>
        (ParseBookmarkAnnotationRow row q).all fun f => decide (e.data = f.data)) = true) ∧
    (∀ (row : BookmarkFolderRow) (q : Str),
      ((ParseBookmarkFolderRow row q).filter (fun e =>
          decide (e.timestamp_desc = EventRole.addedTime))).length
        = (if pyTruthy row.dateAdded then 1 else 0) ∧
      ((ParseBookmarkFolderRow row q).filter (fun e =>
          decide (e.timestamp_desc = EventRole.modificationTime))).length
        = (if pyTruthy row.lastModified then 1 else 0) ∧
      (ParseBookmarkFolderRow row q).length
        = (if pyTruthy row.dateAdded then 1 else 0)
            + (if pyTruthy row.lastModified then 1 else 0) ∧
      ((ParseBookmarkFolderRow row q).all fun e =>
        (ParseBookmarkFolderRow row q).all fun f => decide (e.data = f.data)) = true) ∧
    (∀ (row : PageVisitRow) (q : Str) (cache : SQLiteCache) (db : PlacesDatabase),
      (((ParsePageVisitedRow row q cache db).1.filter (fun e =>
          decide (e.timestamp_desc = EventRole.pageVisited))).length
        = (if pyTruthy row.visit_date then 1 else 0)) ∧
      ((ParsePageVisitedRow row q cache db).1.length
        = (if pyTruthy row.visit_date then 1 else 0)) ∧
      (((ParsePageVisitedRow row q cache db).1.all fun e =>
        (ParsePageVisitedRow row q cache db).1.all fun f =>
          decide (e.data = f.data)) = true)) ∧
    (∀ (row : DownloadRow) (q : Str),
      ((ParseDownloadsRow row q).filter (fun e =>
          decide (e.timestamp_desc = EventRole.startTime))).length
        = (if pyTruthy row.startTime then 1 else 0) ∧
      ((ParseDownloadsRow row q).filter (fun e =>
          decide (e.timestamp_desc = EventRole.endTime))).length
        = (if pyTruthy row.endTime then 1 else 0) ∧
      (ParseDownloadsRow row q).length
        = (if pyTruthy row.startTime then 1 else 0)
            + (if pyTruthy row.endTime then 1 else 0) ∧
      ((ParseDownloadsRow row q).all fun e =>
        (ParseDownloadsRow row q).all fun f => decide (e.data = f.data)) = true) := by
  refine ⟨?_, ?_, ?_, ?_, ?_⟩
  · intro row q
    cases h1 : pyTruthy row.dateAdded <;> cases h2 : pyTruthy row.lastModified <;>
      simp [ParseBookmarkRow, h1, h2]
  · intro row q
    cases h1 : pyTruthy row.dateAdded <;> cases h2 : pyTruthy row.lastModified <;>
      simp [ParseBookmarkAnnotationRow, h1, h2]
  · intro row q
    cases h1 : pyTruthy row.dateAdded <;> cases h2 : pyTruthy row.lastModified <;>
      simp [ParseBookmarkFolderRow, h1, h2]
  · intro row q cache db
    cases hv : pyTruthy row.visit_date <;> simp [ParsePageVisitedRow, hv]
  · intro row q
    cases h1 : pyTruthy row.startTime <;> cases h2 : pyTruthy row.endTime <;>
      simp [ParseDownloadsRow, h1, h2]

/-- `commandSplit` splits its input: payload and rest concatenate back. -/
theorem commandSplit_append (s : Str) : (commandSplit s).1 ++ (commandSplit s).2 = s := by
  induction s with
  | nil => rfl
  | cons c t ih =>
    cases hcla : commandLookAhead (c :: t) with
    | true => simp [commandSplit, hcla]
    | false => simp [commandSplit, hcla, ih]

/-- Every character of a truncated `takeWhile` run satisfies the predicate. -/
theorem mem_take_takeWhile {p : Char → Bool} {l : List Char} {n : Nat} :
    ∀ c ∈ (l.takeWhile p).take n, p c = true := fun _ hc =>
  List.mem_takeWhile_imp (List.take_subset n _ hc)

/-- A successful `_TIMESTAMP` match decomposes the input as whitespace, the
marker, whitespace, a run of 9 or 10 digits, and the remainder. -/
theorem timestampTokenMatch_decomp {s ds r : Str}
    (h : timestampTokenMatch s = some (ds, r)) :
    ∃ w1 w2, s = w1 ++ '#' :: (w2 ++ (ds ++ r)) ∧
      (∀ c ∈ ds, Char.isDigit c = true) ∧ 9 ≤ ds.length ∧ ds.length ≤ 10 := by
  unfold timestampTokenMatch at h
  split at h
  next c0 r0 heq =>
    simp only [] at h
    split at h
    next hlen =>
      simp only [Option.some.injEq, Prod.mk.injEq] at h
      obtain ⟨hds, hr⟩ := h
      refine ⟨s.takeWhile isPPWs, r0.takeWhile isPPWs, ?_, ?_, ?_, ?_⟩
      · have hs : s = s.takeWhile isPPWs ++ skipPPWs s :=
          (List.takeWhile_append_dropWhile (p := isPPWs) (l := s)).symm
        have hr0 : r0 = r0.takeWhile isPPWs ++ skipPPWs r0 :=
          (List.takeWhile_append_dropWhile (p := isPPWs) (l := r0)).symm
        have hpre : ds <+: skipPPWs r0 := by
          rw [← hds]
          exact (List.take_prefix 10 _).trans (List.takeWhile_prefix _)
        have hsplit : skipPPWs r0 = ds ++ r := by
          conv_lhs => rw [← List.take_append_drop ds.length (skipPPWs r0)]
          rw [← List.prefix_iff_eq_take.mp hpre]
          rw [← hr, hds]
        conv_lhs => rw [hs, heq, hr0, hsplit]
      · intro c hc
        rw [← hds] at hc
        exact mem_take_takeWhile c hc
      · rw [← hds]; exact hlen
      · rw [← hds]; exact List.length_take_le 10 _
    next hlen => exact absurd h (by simp)
  next hne => exact absurd h (by simp)

/-- C3: every record matched by the line grammar — an anchor of 9 or 10
digits followed by a payload — makes `ParseRecord` (with key `log_entry`)
produce exactly one event, with the modification-time role and with the
command attribute equal to the matched payload; the anchor's marker and digit
characters lie outside the payload. -/
theorem c3_record_single_modification_event (s : Str) (ts : Nat) (cmd rest : Str)
    (h : lineGrammarMatch s = some (ts, cmd, rest))
    (produced : List (Event BashHistoryEventData)) :
    ParseRecord ("log_entry".toList) ⟨ts, cmd⟩ produced
      = (none, produced ++ [⟨(ts : Int), EventRole.modificationTime, ⟨cmd⟩⟩]) ∧
    ∃ w1 w2 ds w3 r3,
      s = w1 ++ '#' :: (w2 ++ (ds ++ (w3 ++ (cmd ++ r3)))) ∧
      (∀ c ∈ ds, Char.isDigit c = true) ∧ 9 ≤ ds.length ∧ ds.length ≤ 10 ∧
      ts = digitsToNat ds := by
  constructor
  · simp [ParseRecord]
  · unfold lineGrammarMatch at h
    split at h
    next hne => exact absurd h (by simp)
    next ds0 r0 htm =>
      simp only [] at h
      split at h
      next hle => exact absurd h (by simp)
      next rest0 hle =>
        simp only [Option.some.injEq, Prod.mk.injEq] at h
        obtain ⟨hts, hcmd, hrest⟩ := h
        obtain ⟨w1, w2, hsdec, hdig, h9, h10⟩ := timestampTokenMatch_decomp htm
        refine ⟨w1, w2, ds0, r0.takeWhile isPPWs, (commandSplit (skipPPWs r0)).2,
          ?_, hdig, h9, h10, hts.symm⟩
        have hr0 : r0 = r0.takeWhile isPPWs ++ skipPPWs r0 :=
          (List.takeWhile_append_dropWhile (p := isPPWs) (l := r0)).symm
        have hcs : skipPPWs r0
            = cmd ++ (commandSplit (skipPPWs r0)).2 := by
          rw [← hcmd]
          exact (commandSplit_append (skipPPWs r0)).symm
        conv_lhs => rw [hsdec, hr0, hcs]

/-- C3 witness: the concrete record `#1609459200\nls -la\n` produces exactly
one modification-time event whose command is `ls -la`. -/
theorem c3_witness :
    lineGrammarMatch ("#1609459200\nls -la\n".toList)
      = some (1609459200, ("ls -la".toList), []) ∧
    ParseRecord ("log_entry".toList) ⟨1609459200, ("ls -la".toList)⟩ []
      = (none,
         [⟨(1609459200 : Int), EventRole.modificationTime, ⟨("ls -la".toList)⟩⟩]) := by
  refine ⟨by decide, ?_⟩
  have h := c3_record_single_modification_event ("#1609459200\nls -la\n".toList)
    1609459200 ("ls -la".toList) [] (by decide) []
  simpa using h.1

/-- The remainder after the whitespace pre-skip is a suffix of the input. -/
theorem skipLS_suffix (ls : Bool) (s : Str) : (skipLS ls s).2 <:+ s := by
  induction s generalizing ls with
  | nil => simp [skipLS]
  | cons c t ih =>
    by_cases h : isPPWs c = true
    · rw [skipLS, if_pos h]
      exact (ih (c == '\n')).trans (List.suffix_cons c t)
    · rw [skipLS, if_neg h]

/-- `dropToLineEnd` yields a suffix of its input. -/
theorem dropToLineEnd_suffix (s : Str) : dropToLineEnd s <:+ s := List.dropWhile_suffix _

/-- A successful first verification element leaves a suffix of the input. -/
theorem elem1_suffix {s rest : Str} (h : elem1 s = some rest) : rest <:+ s := by
  unfold elem1 at h
  split at h
  · exact absurd h (by simp)
  next c0 t =>
    split at h
    · split at h
      next c1 t1 =>
        split at h
        · simp only [Option.some.injEq] at h
          rw [← h]
          exact (dropToLineEnd_suffix (c1 :: t1)).trans (List.suffix_cons c0 (c1 :: t1))
        · simp only [Option.some.injEq] at h
          rw [← h]
          exact (dropToLineEnd_suffix t1).trans
            ((List.suffix_cons c1 t1).trans (List.suffix_cons c0 (c1 :: t1)))
      next =>
        simp only [Option.some.injEq] at h
        rw [← h]
        exact (dropToLineEnd_suffix []).trans (List.suffix_cons c0 [])
    · split at h
      · exact absurd h (by simp)
      · simp only [Option.some.injEq] at h
        rw [← h]
        exact (dropToLineEnd_suffix t).trans (List.suffix_cons c0 t)

/-- Whenever the verification scan succeeds, some suffix of the sample
carries a full `_TIMESTAMP` match that is not followed by a comment. -/
theorem scanVerifyAux_anchor {ls : Bool} {s : Str} (h : scanVerifyAux ls s = true) :
    ∃ q, q ∈ s.tails ∧
      ∃ ds r2, timestampTokenMatch q = some (ds, r2) ∧ commentAt r2 = false := by
  induction s generalizing ls with
  | nil => simp [scanVerifyAux] at h
  | cons c t ih =>
    rw [scanVerifyAux] at h
    cases Bool.or_eq_true_iff.mp h with
    | inl hl =>
      obtain ⟨hls, hv⟩ := Bool.and_eq_true_iff.mp hl
      unfold verifyAt at hv
      split at hv
      · exact absurd hv (by simp)
      next rest helem =>
        split at hv
        · exact absurd hv (by simp)
        next p htm =>
          refine ⟨rest, ?_, p.1, p.2, htm, by simpa using hv⟩
          rw [List.mem_tails]
          exact (elem1_suffix helem).trans (skipLS_suffix ls (c :: t))
    | inr hr =>
      obtain ⟨q, hq, hrest⟩ := ih hr
      refine ⟨q, ?_, hrest⟩
      rw [List.mem_tails] at hq ⊢
      exact hq.trans (List.suffix_cons c t)

/-- C6: `VerifyStructure` returns false for every sample none of whose
suffixes carries the marker-plus-9-to-10-digit anchor shape, and false for
every sample each of whose anchor matches is followed by the comment-style
exclusion, even though digits follow the marker. -/
theorem c6_verification_requires_clean_anchor (s : Str) :
    ((∀ q ∈ s.tails, timestampTokenMatch q = none) → VerifyStructure s = false) ∧
    ((∀ q ∈ s.tails, (timestampTokenMatch q).all (fun p => commentAt p.2) = true) →
      VerifyStructure s = false) := by
  constructor
  · intro hnone
    cases hv : VerifyStructure s with
    | false => rfl
    | true =>
      have hv' : scanVerifyAux true s = true := hv
      obtain ⟨q, hq, ds, r2, htm, _⟩ := scanVerifyAux_anchor hv'
      rw [hnone q hq] at htm
      exact absurd htm (by simp)
  · intro hcom
    cases hv : VerifyStructure s with
    | false => rfl
    | true =>
      have hv' : scanVerifyAux true s = true := hv
      obtain ⟨q, hq, ds, r2, htm, hcf⟩ := scanVerifyAux_anchor hv'
      have hall := hcom q hq
      rw [htm] at hall
      simp only [Option.all] at hall
      rw [hall] at hcf
      exact absurd hcf (by simp)

/-- C6 witness: false at a sample with no anchor at all, and false at a
sample whose only anchor is followed by a comment. -/
theorem c6_witness :
    VerifyStructure ("ls -la".toList) = false ∧
    VerifyStructure ("cmd\n#1234567890 # note".toList) = false :=
  ⟨(c6_verification_requires_clean_anchor ("ls -la".toList)).1 (by decide),
   (c6_verification_requires_clean_anchor ("cmd\n#1234567890 # note".toList)).2
     (by decide)⟩

/-- Invocation-state invariant: either the `url` cache was never stored and
no wide query ran, or it was stored exactly once with the (non-empty) mapping
of the wide query. -/
def CacheInv (db : PlacesDatabase) (c : SQLiteCache) (n : Nat) : Prop :=
  (c = none ∧ n = 0) ∨
  (c = some (CacheQueryResults (URL_CACHE_QUERY_Results db)) ∧
    CacheQueryResults (URL_CACHE_QUERY_Results db) ≠ [] ∧ n = 1)

/-- One `_GetUrl` call preserves the invariant when the wide query has rows:
an unbuilt cache is built (one query), a built non-empty cache is only read. -/
theorem getUrl_preserves_inv {db : PlacesDatabase} {c : SQLiteCache} {n : Nat}
    (u : Int) (hne : URL_CACHE_QUERY_Results db ≠ []) (hinv : CacheInv db c n) :
    CacheInv db (GetUrl u c db).2.1 (n + (GetUrl u c db).2.2) := by
  have hMne : CacheQueryResults (URL_CACHE_QUERY_Results db) ≠ [] := by
    intro hec
    exact hne (List.map_eq_nil_iff.mp hec)
  cases hinv with
  | inl h =>
    obtain ⟨hc, hn⟩ := h
    subst hc
    subst hn
    exact Or.inr ⟨rfl, hMne, rfl⟩
  | inr h =>
    obtain ⟨hc, hM, hn⟩ := h
    subst hc
    subst hn
    have hie : (CacheQueryResults (URL_CACHE_QUERY_Results db)).isEmpty = false := by
      cases hM2 : CacheQueryResults (URL_CACHE_QUERY_Results db) with
      | nil => exact absurd hM2 hM
      | cons a t => rfl
    have e : GetUrl u (some (CacheQueryResults (URL_CACHE_QUERY_Results db))) db
        = (formatUrl (((CacheQueryResults (URL_CACHE_QUERY_Results db)).lookup u).getD
            ([], [])),
           some (CacheQueryResults (URL_CACHE_QUERY_Results db)), 0) := by
      simp [GetUrl, hie]
    rw [e]
    exact Or.inr ⟨rfl, hM, rfl⟩

/-- One page-visit row handler call preserves the invariant when the wide
query has rows. -/
theorem parsePageVisitedRow_inv {db : PlacesDatabase} {c : SQLiteCache} {n : Nat}
    (row : PageVisitRow) (q : Str) (hne : URL_CACHE_QUERY_Results db ≠ [])
    (hinv : CacheInv db c n) :
    CacheInv db (ParsePageVisitedRow row q c db).2.1
      (n + (ParsePageVisitedRow row q c db).2.2) := by
  unfold ParsePageVisitedRow PageVisitExtras
  cases hf : pyTruthy row.from_visit with
  | false => simpa [hf] using hinv
  | true =>
    simp only [hf, if_true]
    exact getUrl_preserves_inv _ hne hinv

/-- The row loop preserves the invariant when the wide query has rows. -/
theorem runRows_inv {db : PlacesDatabase} (q : Str)
    (hne : URL_CACHE_QUERY_Results db ≠ []) (rows : List PageVisitRow) :
    ∀ acc : List (Event FirefoxPlacesPageVisitedEventData) × SQLiteCache × Nat,
      CacheInv db acc.2.1 acc.2.2 →
      CacheInv db (runRows q db rows acc).2.1 (runRows q db rows acc).2.2 := by
  induction rows with
  | nil => intro acc h; exact h
  | cons row rest ih =>
    intro acc h
    rw [runRows]
    exact ih _ (parsePageVisitedRow_inv row q hne h)

/-- C7: within one plugin invocation on one source the wide `url` cache query
is executed (and its mapping stored) at most once, no matter how many rows
resolve a visited-from reference; the final cache is either still unbuilt or
holds exactly the mapping built from the one wide-query execution. -/
theorem c7_cache_built_at_most_once (db : PlacesDatabase) (q : Str) :
    (RunPageVisitedQuery db q).2.2 ≤ 1 ∧
    ((RunPageVisitedQuery db q).2.1 = none ∨
      (RunPageVisitedQuery db q).2.1
        = some (CacheQueryResults (URL_CACHE_QUERY_Results db))) := by
  by_cases hemp : URL_CACHE_QUERY_Results db = []
  · have hrows : pageVisitQueryResults db = [] := by
      have hj : placesJoin db = [] := List.map_eq_nil_iff.mp hemp
      unfold pageVisitQueryResults
      rw [hj]
      rfl
    unfold RunPageVisitedQuery
    rw [hrows]
    exact ⟨Nat.zero_le 1, Or.inl rfl⟩
  · have hinv := runRows_inv q hemp (pageVisitQueryResults db) ([], none, 0)
      (Or.inl ⟨rfl, rfl⟩)
    unfold RunPageVisitedQuery
    cases hinv with
    | inl h =>
      refine ⟨?_, Or.inl h.1⟩
      rw [h.2]
      exact Nat.zero_le 1
    | inr h =>
      refine ⟨?_, Or.inr h.1⟩
      rw [h.2.2]
